import Mathlib

/-!
Shallow embedding of the keep-ui topology module
(src/keep-ui/app/(keep)/topology): the map component in api.ts
(TopologyMap effects and callbacks), the service modal
(ui/services/service-modal.tsx) and the dependency manager
(ui/services/dependency-manager.tsx). Effectful React callbacks are
embedded as pure functions from their inputs and the relevant pre-state
to the state they set plus a trace of the observable actions they issue
(API calls, toast notifications, viewport fits, callback invocations).
-/

namespace Keep

/-- A 2D node position, as held by the rendering layer. -/
structure Pos where
  x : Int
  y : Int
deriving DecidableEq, Repr

/-- Node kind: the map registers two node types, service and application
(nodeTypes in TopologyMap). -/
inductive NodeType
  | service
  | application
deriving DecidableEq, Repr

/-- Content fields of a TopologyService record (model.ts shape as used by
api.ts, service-modal.tsx and dependency-manager.tsx). -/
structure TopologyServiceData where
  id : Nat
  service : String
  display_name : String
  description : String
  team : String
  email : String
  slack : String
  environment : String
  is_manual : Bool
  is_editable : Bool
deriving DecidableEq, Repr

/-- A rendered graph node (TopologyNode): identity, node type, position,
hidden and selected flags, plus the originating record as data. -/
structure TopologyNode where
  id : String
  type : NodeType
  position : Pos
  hidden : Bool
  selected : Bool
  data : TopologyServiceData
deriving DecidableEq, Repr

/-- A rendered graph edge: identity, endpoints, hidden flag. -/
structure TopologyEdge where
  id : String
  source : String
  target : String
  hidden : Bool
deriving DecidableEq, Repr

/-- A member service reference inside a TopologyApplication
(app.services entries carry the numeric id and the service key). -/
structure ApplicationServiceRef where
  id : Nat
  service : String
deriving DecidableEq, Repr

/-- A TopologyApplication: id, name and member service references. -/
structure TopologyApplication where
  id : String
  name : String
  services : List ApplicationServiceRef
deriving DecidableEq, Repr

/-- Form state of the service modal (formData in service-modal.tsx). -/
structure ServiceFormData where
  service : String
  display_name : String
  description : String
  team : String
  email : String
  slack : String
  environment : String
deriving DecidableEq, Repr

/-- An HTTP call issued through the api.ts helpers, as observed by the
UI layer (the body of a service call is the form state sent). -/
inductive ApiCall
  | createService (body : ServiceFormData)
  | updateService (serviceId : Nat) (body : ServiceFormData)
  | deleteDependency (serviceId : Nat) (targetServiceId : Nat)
  | createDependency (serviceId : Nat) (targetServiceId : Nat)
deriving DecidableEq, Repr

/-- A toast notification (showSuccessToast / showErrorToast). -/
inductive Toast
  | success (msg : String)
  | error (msg : String)
deriving DecidableEq, Repr

/-! ## Service modal (service-modal.tsx) -/

/-- Initial form state of the service modal in create mode
(service-modal.tsx lines 36-44): every field empty except environment,
which starts as "production". -/
def initialFormData : ServiceFormData :=
  { service := ""
    display_name := ""
    description := ""
    team := ""
    email := ""
    slack := ""
    environment := "production" }

/-- The form fields of the service modal. -/
inductive FormField
  | service
  | display_name
  | description
  | team
  | email
  | slack
  | environment
deriving DecidableEq, Repr

/-- One onChange handler firing: setFormData with the given field
replaced by the given value (service-modal.tsx input handlers). -/
def setField (fd : ServiceFormData) : FormField → String → ServiceFormData
  | FormField.service, v => { fd with service := v }
  | FormField.display_name, v => { fd with display_name := v }
  | FormField.description, v => { fd with description := v }
  | FormField.team, v => { fd with team := v }
  | FormField.email, v => { fd with email := v }
  | FormField.slack, v => { fd with slack := v }
  | FormField.environment, v => { fd with environment := v }

/-- A sequence of user edits applied to the form state in order. -/
def applyEdits (fd : ServiceFormData) (edits : List (FormField × String)) :
    ServiceFormData :=
  edits.foldl (fun acc e => setField acc e.1 e.2) fd

/-- Result of the modal submit handler: the API calls issued, the toasts
shown, and whether the onSuccess and onClose props were invoked. -/
structure SubmitResult where
  apiCalls : List ApiCall
  toasts : List Toast
  onSuccessCalled : Bool
  onCloseCalled : Bool
deriving DecidableEq, Repr

/-- handleSubmit of the service modal (service-modal.tsx lines 60-82):
update when an existing service is being edited, create otherwise; the
single awaited call either resolves (callSucceeds = true) or throws.
On success: success toast, then onSuccess and onClose. On failure the
catch block shows an error toast and neither callback runs. -/
def serviceModalHandleSubmit (service : Option TopologyServiceData)
    (formData : ServiceFormData) (callSucceeds : Bool) : SubmitResult :=
  match service with
  | some s =>
    if callSucceeds then
      { apiCalls := [ApiCall.updateService s.id formData]
        toasts := [Toast.success "Service updated successfully"]
        onSuccessCalled := true
        onCloseCalled := true }
    else
      { apiCalls := [ApiCall.updateService s.id formData]
        toasts := [Toast.error "Failed to update service. Please try again."]
        onSuccessCalled := false
        onCloseCalled := false }
  | none =>
    if callSucceeds then
      { apiCalls := [ApiCall.createService formData]
        toasts := [Toast.success "Service created successfully"]
        onSuccessCalled := true
        onCloseCalled := true }
    else
      { apiCalls := [ApiCall.createService formData]
        toasts := [Toast.error "Failed to create service. Please try again."]
        onSuccessCalled := false
        onCloseCalled := false }

/-- Whether every required input of the service form is non-empty: the
service, display_name and environment inputs carry the required
attribute (service-modal.tsx lines 102-179). -/
def requiredFieldsFilled (fd : ServiceFormData) : Bool :=
  !(fd.service == "") && !(fd.display_name == "") && !(fd.environment == "")

/-- Modelled from the spec: the client-side required-field constraint on
form submission is enforced by the browser (HTML constraint validation,
outside this repository). The spec states that a submission with a
required field empty is rejected client-side before any request is
issued, so the submit handler only runs when every required field is
filled. -/
def submitServiceForm (service : Option TopologyServiceData)
    (formData : ServiceFormData) (callSucceeds : Bool) : Option SubmitResult :=
  if requiredFieldsFilled formData then
    some (serviceModalHandleSubmit service formData callSucceeds)
  else
    none

/-! ## Edit-service action (api.ts handleEditService, lines 437-444) -/

/-- Modal-related state touched by handleEditService. -/
structure EditModalState where
  selectedService : Option TopologyServiceData
  isServiceModalOpen : Bool
deriving DecidableEq, Repr

/-- Result of the edit action: the modal state it leaves, the toasts it
shows, and the API calls it issues. -/
structure EditActionResult where
  modal : EditModalState
  toasts : List Toast
  apiCalls : List ApiCall
deriving DecidableEq, Repr

/-- handleEditService (api.ts lines 437-444): a non-editable service is
rejected with an error toast and the handler returns without touching
the modal state; an editable one becomes the selected service and the
modal opens. The handler issues no HTTP call in either branch. -/
def handleEditService (service : TopologyServiceData) (st : EditModalState) :
    EditActionResult :=
  if !service.is_editable then
    { modal := st
      toasts :=
        [Toast.error "This service cannot be edited as it is managed by a provider"]
      apiCalls := [] }
  else
    { modal := { selectedService := some service, isServiceModalOpen := true }
      toasts := []
      apiCalls := [] }

/-! ## Dependency manager (dependency-manager.tsx) -/

/-- The dependency calls planned by handleSubmit (lines 52-71): first
one deleteDependency per existing dependency that is no longer
selected, in existing order, then one createDependency per selected
dependency that did not exist before, in selected order. -/
def plannedDependencyCalls (serviceId : Nat)
    (existingDependencies selectedDependencies : List Nat) : List ApiCall :=
  let removedDependencies :=
    existingDependencies.filter (fun dep => !selectedDependencies.contains dep)
  let newDependencies :=
    selectedDependencies.filter (fun dep => !existingDependencies.contains dep)
  removedDependencies.map (fun depId => ApiCall.deleteDependency serviceId depId) ++
    newDependencies.map (fun depId => ApiCall.createDependency serviceId depId)

/-- Sequential awaited execution of a call list: each call is issued in
order; a failing call throws, so it is the last one issued and the rest
are never reached. Returns the issued calls and whether all succeeded. -/
def runSequentially (ok : ApiCall → Bool) : List ApiCall → List ApiCall × Bool
  | [] => ([], true)
  | c :: rest =>
    if ok c then
      let r := runSequentially ok rest
      (c :: r.1, r.2)
    else
      ([c], false)

/-- Result of the dependency manager submit: issued calls in order,
toasts, and whether onSuccess and onClose ran. -/
structure DependencySubmitResult where
  issuedCalls : List ApiCall
  toasts : List Toast
  onSuccessCalled : Bool
  onCloseCalled : Bool
deriving DecidableEq, Repr

/-- handleSubmit of the dependency manager (lines 48-82): the planned
delete-then-create calls run sequentially inside one try block; when
all resolve, a success toast is shown and onSuccess and onClose run;
the first rejection jumps to the catch block, which shows an error
toast, and the callbacks never run. -/
def dependencyManagerHandleSubmit (ok : ApiCall → Bool) (serviceId : Nat)
    (existingDependencies selectedDependencies : List Nat) :
    DependencySubmitResult :=
  let r := runSequentially ok
    (plannedDependencyCalls serviceId existingDependencies selectedDependencies)
  if r.2 then
    { issuedCalls := r.1
      toasts := [Toast.success "Dependencies updated successfully"]
      onSuccessCalled := true
      onCloseCalled := true }
  else
    { issuedCalls := r.1
      toasts := [Toast.error "Failed to update dependencies. Please try again."]
      onSuccessCalled := false
      onCloseCalled := false }

/-- The dependency targets offered in the manager form (lines 104-105):
availableServices with the managed service itself filtered out. -/
def selectableTargets (service : TopologyServiceData)
    (availableServices : List TopologyServiceData) : List Nat :=
  (availableServices.filter (fun s => s.id != service.id)).map (fun s => s.id)

/-- toggleDependency (lines 84-90): remove the id when present,
append it otherwise. -/
def toggleDependency (serviceId : Nat) (prev : List Nat) : List Nat :=
  if prev.contains serviceId then
    prev.filter (fun id => id != serviceId)
  else
    prev ++ [serviceId]

/-- The selection states reachable in the dependency manager: the state
starts as existingDependencies (the useEffect on lines 44-46) and every
user interaction toggles the id of one offered checkbox, which ranges
over the selectable targets only. -/
inductive SelectionReachable (service : TopologyServiceData)
    (availableServices : List TopologyServiceData)
    (existingDependencies : List Nat) : List Nat → Prop
  | init : SelectionReachable service availableServices existingDependencies
      existingDependencies
  | toggle {sel : List Nat} (sid : Nat)
      (hsel : SelectionReachable service availableServices existingDependencies sel)
      (hmem : sid ∈ selectableTargets service availableServices) :
      SelectionReachable service availableServices existingDependencies
        (toggleDependency sid sel)

/-! ## Viewport fits, selection effect and application filter (api.ts) -/

/-- A fitView invocation as observed from the effects: the node ids it
targets (only rendered nodes are collected) and whether the call was
deferred by a zero-delay setTimeout. -/
structure FitCall where
  nodeIds : List String
  deferredByZeroTimeout : Bool
deriving DecidableEq, Repr

/-- fitViewToServices (api.ts lines 225-242): collects the rendered
nodes among the requested service ids via getNode, then wraps the
fitView call in setTimeout(..., 0). -/
def fitViewToServices (nodes : List TopologyNode) (serviceIds : List String) :
    FitCall :=
  { nodeIds := serviceIds.filter (fun id => nodes.any (fun n => n.id == id))
    deferredByZeroTimeout := true }

/-- highlightNodes (api.ts lines 214-223): every node becomes selected
exactly when its id is in the requested list. -/
def highlightNodes (nodeIds : List String) (nodes : List TopologyNode) :
    List TopologyNode :=
  nodes.map (fun n => { n with selected := nodeIds.contains n.id })

/-- Result of the watchSelectedApplications effect: the node and edge
state it sets and the fit call it issues, if any. -/
structure FilterResult where
  nodes : List TopologyNode
  edges : List TopologyEdge
  fit : Option FitCall
deriving DecidableEq, Repr

/-- The member service ids of the selected applications, as collected
by watchSelectedApplications (the source builds a Set; the model keeps
a list with the same membership). -/
def memberServiceIds (applications : List TopologyApplication)
    (selectedApplicationIds : List String) : List String :=
  applications.flatMap (fun app =>
    if selectedApplicationIds.contains app.id then
      app.services.map (fun s => s.service)
    else [])

/-- watchSelectedApplications (api.ts lines 373-424): with an empty
selection, every hidden flag is cleared and no fit is issued; otherwise
the member service ids of the selected applications are collected,
every node is assigned hidden = (type is service and id not a member),
every edge hidden = not (source and target both members), and fitView
is then called directly on the rendered members, with no setTimeout
around it. -/
def watchSelectedApplications (applications : List TopologyApplication)
    (selectedApplicationIds : List String) (nodes : List TopologyNode)
    (edges : List TopologyEdge) : FilterResult :=
  if selectedApplicationIds.length == 0 then
    { nodes := nodes.map (fun n => { n with hidden := false })
      edges := edges.map (fun e => { e with hidden := false })
      fit := none }
  else
    let selectedServiceNodesIds := memberServiceIds applications selectedApplicationIds
    { nodes := nodes.map (fun n =>
        { n with hidden :=
            n.type == NodeType.service && !(selectedServiceNodesIds.contains n.id) })
      edges := edges.map (fun e =>
        { e with hidden :=
            !(selectedServiceNodesIds.contains e.source &&
              selectedServiceNodesIds.contains e.target) })
      fit := some
        { nodeIds := selectedServiceNodesIds.filter
            (fun id => nodes.any (fun n => n.id == id))
          deferredByZeroTimeout := false } }

/-- Result of the selection effect: the node state it sets, the fit
call it issues, and whether it cleared selectedObjectId. -/
structure SelectionEffectResult where
  nodes : List TopologyNode
  fit : Option FitCall
  selectionCleared : Bool
deriving DecidableEq, Repr

/-- The selection effect (api.ts lines 298-324): nothing happens when
the map is invisible or no id is pending; a rendered node with the id
(getNode) is highlighted alone and fitted via fitViewToServices;
otherwise a known application resolves to its member service ids,
which are highlighted and fitted; an unknown id is a no-op. -/
def selectionEffect (isVisible : Bool) (selectedObjectId : Option String)
    (applicationMap : List TopologyApplication) (nodes : List TopologyNode) :
    SelectionEffectResult :=
  match selectedObjectId with
  | none => { nodes := nodes, fit := none, selectionCleared := false }
  | some oid =>
    if !isVisible || oid == "" then
      { nodes := nodes, fit := none, selectionCleared := false }
    else if nodes.any (fun n => n.id == oid) then
      { nodes := highlightNodes [oid] nodes
        fit := some (fitViewToServices nodes [oid])
        selectionCleared := true }
    else
      match applicationMap.find? (fun app => app.id == oid) with
      | none => { nodes := nodes, fit := none, selectionCleared := false }
      | some application =>
        let serviceIds := application.services.map (fun s => s.service)
        { nodes := highlightNodes serviceIds nodes
          fit := some (fitViewToServices nodes serviceIds)
          selectionCleared := true }

/-! ## Incremental reconciler (api.ts createAndSetLayoutedNodesAndEdges,
lines 330-371) -/

/-- Modelled from the spec: areSetsEqual (imported from utils/helpers,
which is not under src) compares the newly built node-id set with the
previously stored one as unordered sets. -/
def areSetsEqual (a b : List String) : Bool :=
  a.all (fun x => b.contains x) && b.all (fun x => a.contains x)

/-- The graph state owned by the map component that the reconciler
effect reads and writes: the nodes and edges React state and the
previousNodesIds ref. -/
structure ReconcilerState where
  nodes : List TopologyNode
  edges : List TopologyEdge
  previousNodesIds : List String
deriving DecidableEq, Repr

/-- The createAndSetLayoutedNodesAndEdges effect (api.ts lines
330-371), parametrized by getLayoutedElements (ui/map, not under src).
The effect receives the freshly built newNodes and newEdges; when the
previous id set is non-empty and equals the new id set, it sets the
edges to the new ones and maps the previous nodes to the new content
while keeping each current position; otherwise it stores the new id
set. It then — in both cases, since the stable branch does not return
— computes the layouted elements from the fresh build and sets the
nodes and edges to that result wholesale. -/
def createAndSetLayoutedNodesAndEdges
    (getLayoutedElements :
      List TopologyNode → List TopologyEdge → List TopologyNode × List TopologyEdge)
    (newNodes : List TopologyNode) (newEdges : List TopologyEdge)
    (st : ReconcilerState) : ReconcilerState :=
  let newIds := newNodes.map (fun n => n.id)
  let st1 :=
    if decide (0 < st.previousNodesIds.length) &&
        areSetsEqual st.previousNodesIds newIds then
      { st with
        edges := newEdges
        nodes := st.nodes.map (fun n =>
          match newNodes.find? (fun nn => nn.id == n.id) with
          | some newNode => { newNode with position := n.position }
          | none => n) }
    else
      { st with previousNodesIds := newIds }
  let layoutedElements := getLayoutedElements newNodes newEdges
  { st1 with nodes := layoutedElements.1, edges := layoutedElements.2 }

/-! ## Concrete fixtures used by witnesses and counterexamples -/

/-- A plain service record used to populate node fixtures. -/
def sampleData : TopologyServiceData :=
  { id := 0, service := "", display_name := "", description := ""
    team := "", email := "", slack := "", environment := ""
    is_manual := false, is_editable := false }

/-- A concrete application with one member service s1. -/
def appA : TopologyApplication :=
  { id := "A", name := "App A", services := [{ id := 10, service := "s1" }] }

/-- A concrete visible service node with id x, not a member of appA. -/
def nodeX : TopologyNode :=
  { id := "x", type := NodeType.service, position := { x := 0, y := 0 }
    hidden := false, selected := false, data := sampleData }

/-- A concrete application node that is currently hidden. -/
def hiddenAppNode : TopologyNode :=
  { id := "papp", type := NodeType.application, position := { x := 0, y := 0 }
    hidden := true, selected := false, data := sampleData }

/-- A concrete freshly built node for service svc1, at the default
builder position. -/
def builtNode : TopologyNode :=
  { id := "svc1", type := NodeType.service, position := { x := 0, y := 0 }
    hidden := false, selected := false, data := sampleData }

/-- A concrete stand-in for getLayoutedElements that assigns every node
the origin: any total layout suffices to exercise the reconciler, which
treats the layout engine as a black box. -/
def layoutAtOrigin (ns : List TopologyNode) (es : List TopologyEdge) :
    List TopologyNode × List TopologyEdge :=
  (ns.map (fun n => { n with position := { x := 0, y := 0 } }), es)

end Keep

namespace Keep

/-! ## Theorems for the service modal and edit action claims -/

/-- Helper: applying edits that never touch the environment field leaves
the environment value of the form state unchanged. -/
theorem applyEdits_environment (edits : List (FormField × String)) :
    ∀ fd : ServiceFormData,
      (∀ e ∈ edits, e.1 ≠ FormField.environment) →
      (applyEdits fd edits).environment = fd.environment := by
  induction edits with
  | nil => intro fd _; rfl
  | cons e rest ih =>
    intro fd h
    have hrest : ∀ x ∈ rest, x.1 ≠ FormField.environment := by
      intro x hx
      exact h x (List.mem_cons_of_mem e hx)
    have he : e.1 ≠ FormField.environment := h e (List.mem_cons_self e rest)
    have hstep : (setField fd e.1 e.2).environment = fd.environment := by
      cases hf : e.1 <;> simp [setField]
      exact absurd hf he
    calc (applyEdits fd (e :: rest)).environment
        = (applyEdits (setField fd e.1 e.2) rest).environment := rfl
      _ = (setField fd e.1 e.2).environment := ih (setField fd e.1 e.2) hrest
      _ = fd.environment := hstep

/-- C10: in create mode, if the environment field is never edited, the
form state still carries environment = "production" at submit time and
the create request sends the form state as-is. -/
theorem createMode_environment_production
    (edits : List (FormField × String)) (callSucceeds : Bool)
    (h : ∀ e ∈ edits, e.1 ≠ FormField.environment) :
    (applyEdits initialFormData edits).environment = "production" ∧
    (serviceModalHandleSubmit none (applyEdits initialFormData edits)
        callSucceeds).apiCalls =
      [ApiCall.createService (applyEdits initialFormData edits)] := by
  constructor
  · exact applyEdits_environment edits initialFormData h
  · cases callSucceeds <;> rfl

/-- Witness for C10 at a concrete edit sequence that fills the service
and display_name fields but never the environment. -/
theorem createMode_environment_production_witness :
    (applyEdits initialFormData
        [(FormField.service, "api"), (FormField.display_name, "API")]).environment
      = "production" ∧
    (serviceModalHandleSubmit none
        (applyEdits initialFormData
          [(FormField.service, "api"), (FormField.display_name, "API")])
        true).apiCalls =
      [ApiCall.createService
        (applyEdits initialFormData
          [(FormField.service, "api"), (FormField.display_name, "API")])] :=
  createMode_environment_production
    [(FormField.service, "api"), (FormField.display_name, "API")] true
    (by decide)

/-- C7: a failing create or update call is caught at the modal boundary:
exactly one error toast is shown and neither onSuccess nor onClose runs;
a successful call shows a success toast and invokes both callbacks. -/
theorem serviceModal_error_handling (service : Option TopologyServiceData)
    (fd : ServiceFormData) :
    ((serviceModalHandleSubmit service fd false).onSuccessCalled = false ∧
      (serviceModalHandleSubmit service fd false).onCloseCalled = false ∧
      ∃ m, (serviceModalHandleSubmit service fd false).toasts = [Toast.error m]) ∧
    ((serviceModalHandleSubmit service fd true).onSuccessCalled = true ∧
      (serviceModalHandleSubmit service fd true).onCloseCalled = true ∧
      ∃ m, (serviceModalHandleSubmit service fd true).toasts = [Toast.success m]) := by
  cases service with
  | none =>
    exact ⟨⟨rfl, rfl, ⟨"Failed to create service. Please try again.", rfl⟩⟩,
      ⟨rfl, rfl, ⟨"Service created successfully", rfl⟩⟩⟩
  | some s =>
    exact ⟨⟨rfl, rfl, ⟨"Failed to update service. Please try again.", rfl⟩⟩,
      ⟨rfl, rfl, ⟨"Service updated successfully", rfl⟩⟩⟩

/-- C9: submitting the create form with the service field empty is
blocked by the required-field constraint: no submit result is produced,
so no create request is issued. -/
theorem emptyService_rejected (fd : ServiceFormData) (callSucceeds : Bool)
    (h : fd.service = "") :
    submitServiceForm none fd callSucceeds = none := by
  unfold submitServiceForm requiredFieldsFilled
  rw [h]
  simp

/-- Witness for C9: a form with display_name filled and service empty is
rejected. -/
theorem emptyService_rejected_witness :
    submitServiceForm none { initialFormData with display_name := "My Service" }
      true = none :=
  emptyService_rejected { initialFormData with display_name := "My Service" }
    true rfl

/-- C6: editing a service with is_editable = false is rejected before
any request: an error toast, no modal opening, no API call; with
is_editable = true the modal opens with that service selected and no
toast or API call is issued. -/
theorem handleEditService_permission (service : TopologyServiceData)
    (st : EditModalState) :
    (service.is_editable = false →
      (handleEditService service st).modal = st ∧
      (handleEditService service st).toasts =
        [Toast.error "This service cannot be edited as it is managed by a provider"] ∧
      (handleEditService service st).apiCalls = []) ∧
    (service.is_editable = true →
      (handleEditService service st).modal =
        { selectedService := some service, isServiceModalOpen := true } ∧
      (handleEditService service st).toasts = [] ∧
      (handleEditService service st).apiCalls = []) := by
  constructor
  · intro h
    unfold handleEditService
    rw [h]
    exact ⟨rfl, rfl, rfl⟩
  · intro h
    unfold handleEditService
    rw [h]
    exact ⟨rfl, rfl, rfl⟩

/-! ## Theorems for the dependency manager claims -/

/-- Helper: when every call succeeds, sequential execution issues the
whole list and reports success. -/
theorem runSequentially_ok (ok : ApiCall → Bool) :
    ∀ cs : List ApiCall, (∀ c ∈ cs, ok c = true) →
      runSequentially ok cs = (cs, true) := by
  intro cs
  induction cs with
  | nil => intro _; rfl
  | cons c rest ih =>
    intro h
    have hc : ok c = true := h c (List.mem_cons_self c rest)
    have hr := ih (fun d hd => h d (List.mem_cons_of_mem c hd))
    simp [runSequentially, hc, hr]

/-- Helper: when the calls before c all succeed and c fails, sequential
execution issues exactly the successful prefix followed by c, and the
calls after c are never issued. -/
theorem runSequentially_fail (ok : ApiCall → Bool) :
    ∀ (pre : List ApiCall) (c : ApiCall) (post : List ApiCall),
      (∀ d ∈ pre, ok d = true) → ok c = false →
      runSequentially ok (pre ++ c :: post) = (pre ++ [c], false) := by
  intro pre
  induction pre with
  | nil =>
    intro c post _ hc
    simp [runSequentially, hc]
  | cons d rest ih =>
    intro c post h hc
    have hd : ok d = true := h d (List.mem_cons_self d rest)
    have hr := ih c post (fun x hx => h x (List.mem_cons_of_mem d hx)) hc
    simp [runSequentially, hd, hr]

/-- C5: in a dependency batch, every delete call precedes every create
call; when all calls succeed they are all issued in order and the
success toast plus onSuccess and onClose follow; when a call fails
after a successful prefix, exactly that prefix plus the failing call
was issued (earlier calls stay committed, later ones are never sent),
the error toast is shown, and neither onSuccess nor onClose runs. -/
theorem dependencyManager_sequential_batch (ok : ApiCall → Bool) (sid : Nat)
    (ex sel : List Nat) :
    (∀ i j di ci,
        (plannedDependencyCalls sid ex sel).get? i =
          some (ApiCall.createDependency sid ci) →
        (plannedDependencyCalls sid ex sel).get? j =
          some (ApiCall.deleteDependency sid di) → j < i) ∧
    ((∀ c ∈ plannedDependencyCalls sid ex sel, ok c = true) →
        dependencyManagerHandleSubmit ok sid ex sel =
          { issuedCalls := plannedDependencyCalls sid ex sel
            toasts := [Toast.success "Dependencies updated successfully"]
            onSuccessCalled := true
            onCloseCalled := true }) ∧
    (∀ (pre : List ApiCall) (c : ApiCall) (post : List ApiCall),
        plannedDependencyCalls sid ex sel = pre ++ c :: post →
        (∀ d ∈ pre, ok d = true) → ok c = false →
        dependencyManagerHandleSubmit ok sid ex sel =
          { issuedCalls := pre ++ [c]
            toasts := [Toast.error "Failed to update dependencies. Please try again."]
            onSuccessCalled := false
            onCloseCalled := false }) := by
  refine ⟨?_, ?_, ?_⟩
  · intro i j di ci hi hj
    simp only [plannedDependencyCalls] at hi hj
    have hR : ∀ k x,
        ((ex.filter (fun dep => !sel.contains dep)).map
          (fun depId => ApiCall.deleteDependency sid depId)).get? k = some x →
        ∃ d, x = ApiCall.deleteDependency sid d := by
      intro k x hk
      have hx := List.get?_mem hk
      rcases List.mem_map.mp hx with ⟨d, _, rfl⟩
      exact ⟨d, rfl⟩
    have hN : ∀ k x,
        ((sel.filter (fun dep => !ex.contains dep)).map
          (fun depId => ApiCall.createDependency sid depId)).get? k = some x →
        ∃ d, x = ApiCall.createDependency sid d := by
      intro k x hk
      have hx := List.get?_mem hk
      rcases List.mem_map.mp hx with ⟨d, _, rfl⟩
      exact ⟨d, rfl⟩
    have hjlt : j <
        ((ex.filter (fun dep => !sel.contains dep)).map
          (fun depId => ApiCall.deleteDependency sid depId)).length := by
      by_contra hge
      rw [List.get?_append_right (Nat.le_of_not_lt hge)] at hj
      rcases hN _ _ hj with ⟨d, hd⟩
      exact ApiCall.noConfusion hd
    have hige :
        ((ex.filter (fun dep => !sel.contains dep)).map
          (fun depId => ApiCall.deleteDependency sid depId)).length ≤ i := by
      by_contra hlt
      rw [List.get?_append (Nat.lt_of_not_le hlt)] at hi
      rcases hR _ _ hi with ⟨d, hd⟩
      exact ApiCall.noConfusion hd
    exact Nat.lt_of_lt_of_le hjlt hige
  · intro hall
    have h1 := runSequentially_ok ok (plannedDependencyCalls sid ex sel) hall
    simp [dependencyManagerHandleSubmit, h1]
  · intro pre c post hsplit hpre hc
    have h1 := runSequentially_fail ok pre c post hpre hc
    simp [dependencyManagerHandleSubmit, hsplit, h1]

/-- Witness for C5: service 1 with existing dependencies [2, 3] and
selection [3, 4] plans a delete of 2 then a create of 4; with an
executor that fails every create, the delete stays committed, the
create is the last call issued, and the error path is taken. -/
theorem dependencyManager_sequential_batch_witness :
    dependencyManagerHandleSubmit
        (fun c => match c with
          | ApiCall.createDependency _ _ => false
          | _ => true)
        1 [2, 3] [3, 4] =
      { issuedCalls := [ApiCall.deleteDependency 1 2, ApiCall.createDependency 1 4]
        toasts := [Toast.error "Failed to update dependencies. Please try again."]
        onSuccessCalled := false
        onCloseCalled := false } :=
  (dependencyManager_sequential_batch
      (fun c => match c with
        | ApiCall.createDependency _ _ => false
        | _ => true)
      1 [2, 3] [3, 4]).2.2
    [ApiCall.deleteDependency 1 2] (ApiCall.createDependency 1 4) []
    (by decide) (by decide) (by decide)

/-- Helper: the offered dependency targets never contain the managed
service itself. -/
theorem selectableTargets_ne (svc : TopologyServiceData)
    (avail : List TopologyServiceData) :
    ∀ t ∈ selectableTargets svc avail, t ≠ svc.id := by
  intro t ht
  simp only [selectableTargets, List.mem_map, List.mem_filter] at ht
  obtain ⟨s, ⟨_, hne⟩, rfl⟩ := ht
  simpa using hne

/-- Helper: every id in a reachable selection state is either an
existing dependency or one of the offered targets. -/
theorem reachable_targets (svc : TopologyServiceData)
    (avail : List TopologyServiceData) (ex : List Nat) :
    ∀ sel, SelectionReachable svc avail ex sel →
      ∀ t ∈ sel, t ∈ ex ∨ t ∈ selectableTargets svc avail := by
  intro sel h
  induction h with
  | init => intro t ht; exact Or.inl ht
  | toggle sid hsel hmem ih =>
    intro t ht
    unfold toggleDependency at ht
    split at ht
    · exact ih t (List.mem_filter.mp ht).1
    · rcases List.mem_append.mp ht with h1 | h2
      · exact ih t h1
      · have : t = sid := by simpa using h2
        subst this
        exact Or.inr hmem

/-- C8: the dependency form never offers the managed service as a
target, and for every reachable selection state, every create call the
submit handler would plan has a target different from the managed
service, so every dependency created through the manager has
source different from target. -/
theorem dependencyManager_no_self_dependency (svc : TopologyServiceData)
    (avail : List TopologyServiceData) (ex sel : List Nat)
    (hreach : SelectionReachable svc avail ex sel) :
    svc.id ∉ selectableTargets svc avail ∧
    ∀ t, ApiCall.createDependency svc.id t ∈
        plannedDependencyCalls svc.id ex sel →
      t ≠ svc.id := by
  constructor
  · intro hmem
    exact selectableTargets_ne svc avail svc.id hmem rfl
  · intro t hmem
    simp only [plannedDependencyCalls, List.mem_append, List.mem_map,
      List.mem_filter] at hmem
    rcases hmem with ⟨d, _, hd⟩ | ⟨d, ⟨hdsel, hdex⟩, hd⟩
    · exact absurd hd (by intro h; exact ApiCall.noConfusion h)
    · have hdt : d = t := by
        have := (ApiCall.createDependency.injEq _ _ _ _).mp hd
        exact this.2
      subst hdt
      have hnotex : d ∉ ex := by
        intro hin
        simp [hin] at hdex
      rcases reachable_targets svc avail ex sel hreach d hdsel with h1 | h2
      · exact absurd h1 hnotex
      · exact selectableTargets_ne svc avail d h2

/-- Witness for C8: with service 1, available services with ids 1 and 2,
no existing dependencies and the selection reached by toggling the
checkbox of service 2, the offered targets exclude 1 and the planned
create targets 2, which differs from 1. -/
theorem dependencyManager_no_self_dependency_witness :
    (1 : Nat) ∉ selectableTargets
        { id := 1, service := "a", display_name := "A", description := ""
          team := "", email := "", slack := "", environment := "production"
          is_manual := true, is_editable := true }
        [{ id := 1, service := "a", display_name := "A", description := ""
           team := "", email := "", slack := "", environment := "production"
           is_manual := true, is_editable := true },
         { id := 2, service := "b", display_name := "B", description := ""
           team := "", email := "", slack := "", environment := "production"
           is_manual := true, is_editable := true }] ∧
    (2 : Nat) ≠ 1 := by
  have h := dependencyManager_no_self_dependency
    { id := 1, service := "a", display_name := "A", description := ""
      team := "", email := "", slack := "", environment := "production"
      is_manual := true, is_editable := true }
    [{ id := 1, service := "a", display_name := "A", description := ""
       team := "", email := "", slack := "", environment := "production"
       is_manual := true, is_editable := true },
     { id := 2, service := "b", display_name := "B", description := ""
       team := "", email := "", slack := "", environment := "production"
       is_manual := true, is_editable := true }]
    [] (toggleDependency 2 [])
    (SelectionReachable.toggle 2 SelectionReachable.init (by decide))
  exact ⟨h.1, h.2 2 (by decide)⟩

/-- Witness for C6 at a concrete non-editable service and a concrete
editable one. -/
theorem handleEditService_permission_witness :
    ((handleEditService
        { id := 1, service := "svc", display_name := "Svc", description := ""
          team := "", email := "", slack := "", environment := "production"
          is_manual := false, is_editable := false }
        { selectedService := none, isServiceModalOpen := false }).toasts =
      [Toast.error "This service cannot be edited as it is managed by a provider"]) ∧
    ((handleEditService
        { id := 2, service := "svc2", display_name := "Svc2", description := ""
          team := "", email := "", slack := "", environment := "production"
          is_manual := true, is_editable := true }
        { selectedService := none, isServiceModalOpen := false }).modal.isServiceModalOpen
      = true) := by
  constructor
  · exact (handleEditService_permission
      { id := 1, service := "svc", display_name := "Svc", description := ""
        team := "", email := "", slack := "", environment := "production"
        is_manual := false, is_editable := false }
      { selectedService := none, isServiceModalOpen := false }).1 rfl |>.2.1
  · have h := (handleEditService_permission
      { id := 2, service := "svc2", display_name := "Svc2", description := ""
        team := "", email := "", slack := "", environment := "production"
        is_manual := true, is_editable := true }
      { selectedService := none, isServiceModalOpen := false }).2 rfl
    rw [h.1]

/-! ## Theorems for the application filter claims -/

/-- Counterexample to the claim that the application filter leaves
ApplicationNodes untouched: a currently hidden application node ends
visible after filtering by a non-empty selection. -/
theorem applicationFilter_alters_applicationNode :
    hiddenAppNode.hidden = true ∧ hiddenAppNode.type = NodeType.application ∧
    (watchSelectedApplications [appA] ["A"] [hiddenAppNode] []).nodes.map
        (fun n => n.hidden) = [false] := by decide

/-- C3 (amended): an empty selection clears every hidden flag; a
non-empty selection hides exactly the ServiceNodes outside the member
union and the edges with an endpoint outside it, while every
ApplicationNode ends visible (hidden = false), whether or not it was
visible before. -/
theorem applicationFilter_hidden_rules (applications : List TopologyApplication)
    (S : List String) (nodes : List TopologyNode) (edges : List TopologyEdge) :
    (S = [] →
      (∀ n ∈ (watchSelectedApplications applications S nodes edges).nodes,
          n.hidden = false) ∧
      (∀ e ∈ (watchSelectedApplications applications S nodes edges).edges,
          e.hidden = false)) ∧
    (S ≠ [] →
      (∀ n ∈ (watchSelectedApplications applications S nodes edges).nodes,
          n.hidden = (n.type == NodeType.service &&
            !((memberServiceIds applications S).contains n.id))) ∧
      (∀ n ∈ (watchSelectedApplications applications S nodes edges).nodes,
          n.type = NodeType.application → n.hidden = false) ∧
      (∀ e ∈ (watchSelectedApplications applications S nodes edges).edges,
          e.hidden = (!((memberServiceIds applications S).contains e.source) ||
            !((memberServiceIds applications S).contains e.target)))) := by
  constructor
  · intro hS
    subst hS
    refine ⟨?_, ?_⟩
    · intro n hn
      have hn2 : n ∈ nodes.map (fun m => { m with hidden := false }) := hn
      rcases List.mem_map.mp hn2 with ⟨m, _, rfl⟩
      rfl
    · intro e he
      have he2 : e ∈ edges.map (fun m => { m with hidden := false }) := he
      rcases List.mem_map.mp he2 with ⟨m, _, rfl⟩
      rfl
  · intro hS
    have hcond : (S.length == 0) = false := by
      cases S with
      | nil => exact absurd rfl hS
      | cons a tl => rfl
    have hres : watchSelectedApplications applications S nodes edges =
        { nodes := nodes.map (fun n =>
            { n with hidden := n.type == NodeType.service &&
                !((memberServiceIds applications S).contains n.id) })
          edges := edges.map (fun e =>
            { e with hidden :=
                !((memberServiceIds applications S).contains e.source &&
                  (memberServiceIds applications S).contains e.target) })
          fit := some
            { nodeIds := (memberServiceIds applications S).filter
                (fun id => nodes.any (fun n => n.id == id))
              deferredByZeroTimeout := false } } := by
      unfold watchSelectedApplications
      rw [hcond]
      simp
    refine ⟨?_, ?_, ?_⟩
    · intro n hn
      rw [hres] at hn
      rcases List.mem_map.mp hn with ⟨m, _, rfl⟩
      rfl
    · intro n hn htype
      rw [hres] at hn
      rcases List.mem_map.mp hn with ⟨m, _, rfl⟩
      have hm : m.type = NodeType.application := htype
      simp [hm]
    · intro e he
      rw [hres] at he
      rcases List.mem_map.mp he with ⟨m, _, rfl⟩
      simp [Bool.not_and]

/-- Witness for the amended C3 at a non-member service node that was
visible and ends hidden. -/
theorem applicationFilter_hidden_rules_witness :
    ({ nodeX with hidden := true } : TopologyNode).hidden =
      (({ nodeX with hidden := true } : TopologyNode).type == NodeType.service &&
        !((memberServiceIds [appA] ["A"]).contains
            ({ nodeX with hidden := true } : TopologyNode).id)) := by
  have h := (applicationFilter_hidden_rules [appA] ["A"] [nodeX] []).2 (by decide)
  exact h.1 { nodeX with hidden := true } (by decide)

/-! ## Theorems for the viewport deferral claim -/

/-- Counterexample to the claim that every fit after a node/edge state
change is deferred: the application filter changes node state and then
issues its fit with no zero-delay timeout around it. -/
theorem applicationFilter_fit_not_deferred :
    (watchSelectedApplications [appA] ["A"] [nodeX] []).nodes ≠ [nodeX] ∧
    (watchSelectedApplications [appA] ["A"] [nodeX] []).fit =
      some { nodeIds := [], deferredByZeroTimeout := false } := by decide

/-- C2 (amended): fits issued through fitViewToServices — including
every fit of the selection effect — are deferred by a zero-delay
setTimeout, while the fit issued by the application filter is called
synchronously in the same effect as its setNodes and setEdges. -/
theorem fit_deferral_by_path (nodes : List TopologyNode)
    (serviceIds : List String) (isVisible : Bool) (oid : Option String)
    (am : List TopologyApplication) (applications : List TopologyApplication)
    (S : List String) (nds : List TopologyNode) (eds : List TopologyEdge) :
    (fitViewToServices nodes serviceIds).deferredByZeroTimeout = true ∧
    (∀ fc, (selectionEffect isVisible oid am nodes).fit = some fc →
        fc.deferredByZeroTimeout = true) ∧
    (∀ fc, (watchSelectedApplications applications S nds eds).fit = some fc →
        fc.deferredByZeroTimeout = false) := by
  refine ⟨rfl, ?_, ?_⟩
  · intro fc hfc
    cases oid with
    | none => simp [selectionEffect] at hfc
    | some o =>
      by_cases hg : (!isVisible || o == "") = true
      · simp [selectionEffect, hg] at hfc
      · by_cases ha : (nodes.any fun n => n.id == o) = true
        · simp [selectionEffect, hg, ha] at hfc
          subst hfc
          rfl
        · cases hf : am.find? (fun app => app.id == o) with
          | none => simp [selectionEffect, hg, ha, hf] at hfc
          | some application =>
            simp [selectionEffect, hg, ha, hf] at hfc
            subst hfc
            rfl
  · intro fc hfc
    unfold watchSelectedApplications at hfc
    split at hfc
    · simp at hfc
    · injection hfc with h
      subst h
      rfl

/-- Witness for the amended C2: a concrete deferred fitViewToServices
call and the concrete undeferred fit of the application filter. -/
theorem fit_deferral_by_path_witness :
    (fitViewToServices [nodeX] ["x"]).deferredByZeroTimeout = true ∧
    FitCall.deferredByZeroTimeout
        { nodeIds := [], deferredByZeroTimeout := false } = false := by
  have h := fit_deferral_by_path [nodeX] ["x"] true (some "x") [appA] [appA]
    ["A"] [nodeX] []
  exact ⟨h.1, h.2.2 { nodeIds := [], deferredByZeroTimeout := false } (by decide)⟩

/-! ## Theorems for the selection resolution claim -/

/-- Helper: membership of an element in a singleton list as a boolean
equality. -/
theorem contains_singleton (a b : String) :
    ([a] : List String).contains b = (b == a) := by
  cases h : b == a <;> simp [List.contains, List.elem, h]

/-- C4: the selection effect resolves an id in order: a rendered node
with that id is selected alone and fitted; otherwise a known
application selects exactly its member service ids and fits them;
otherwise nothing changes. -/
theorem selectionEffect_resolution (oid : String)
    (applicationMap : List TopologyApplication) (nodes : List TopologyNode)
    (hne : oid ≠ "") :
    ((nodes.any (fun n => n.id == oid)) = true →
        (∀ n ∈ (selectionEffect true (some oid) applicationMap nodes).nodes,
            n.selected = (n.id == oid)) ∧
        (selectionEffect true (some oid) applicationMap nodes).fit =
          some (fitViewToServices nodes [oid])) ∧
    ((nodes.any (fun n => n.id == oid)) = false →
        (∀ application,
            applicationMap.find? (fun app => app.id == oid) = some application →
            (∀ n ∈ (selectionEffect true (some oid) applicationMap nodes).nodes,
                n.selected =
                  ((application.services.map (fun s => s.service)).contains n.id)) ∧
            (selectionEffect true (some oid) applicationMap nodes).fit =
              some (fitViewToServices nodes
                (application.services.map (fun s => s.service)))) ∧
        (applicationMap.find? (fun app => app.id == oid) = none →
            selectionEffect true (some oid) applicationMap nodes =
              { nodes := nodes, fit := none, selectionCleared := false })) := by
  constructor
  · intro hany
    have hres : selectionEffect true (some oid) applicationMap nodes =
        { nodes := highlightNodes [oid] nodes
          fit := some (fitViewToServices nodes [oid])
          selectionCleared := true } := by
      simp [selectionEffect, hne, hany]
    refine ⟨?_, ?_⟩
    · intro n hn
      rw [hres] at hn
      rcases List.mem_map.mp hn with ⟨m, _, rfl⟩
      exact contains_singleton oid m.id
    · rw [hres]
  · intro hany
    constructor
    · intro application hfind
      have hres : selectionEffect true (some oid) applicationMap nodes =
          { nodes := highlightNodes
              (application.services.map (fun s => s.service)) nodes
            fit := some (fitViewToServices nodes
              (application.services.map (fun s => s.service)))
            selectionCleared := true } := by
        simp [selectionEffect, hne, hany, hfind]
      refine ⟨?_, ?_⟩
      · intro n hn
        rw [hres] at hn
        rcases List.mem_map.mp hn with ⟨m, _, rfl⟩
        rfl
      · rw [hres]
    · intro hfind
      simp [selectionEffect, hne, hany, hfind]

/-- Witness for C4 at a rendered node with id x: it ends selected and
the viewport is fitted to it. -/
theorem selectionEffect_resolution_witness :
    ({ nodeX with selected := true } : TopologyNode).selected =
      (({ nodeX with selected := true } : TopologyNode).id == "x") ∧
    (selectionEffect true (some "x") [appA] [nodeX]).fit =
      some (fitViewToServices [nodeX] ["x"]) := by
  have h := (selectionEffect_resolution "x" [appA] [nodeX] (by decide)).1 (by decide)
  exact ⟨h.1 { nodeX with selected := true } (by decide), h.2⟩

/-! ## Theorems for the reconciler claim -/

/-- Helper: whatever the branch taken, the reconciler effect always
ends by replacing the node state with the freshly layouted nodes, so
the position-preserving merge of the stable branch never reaches the
final state. -/
theorem reconciler_final_state_is_layout
    (getLayoutedElements :
      List TopologyNode → List TopologyEdge → List TopologyNode × List TopologyEdge)
    (newNodes : List TopologyNode) (newEdges : List TopologyEdge)
    (st : ReconcilerState) :
    (createAndSetLayoutedNodesAndEdges getLayoutedElements newNodes newEdges
        st).nodes = (getLayoutedElements newNodes newEdges).1 := rfl

/-- C1 failing input: a stable refresh (same id set svc1) over a node
the user dragged to (5, 7); the effect ends with the layout position
(0, 0), not the previously-set position. -/
theorem stableRefresh_overwrites_position :
    (decide (0 < (["svc1"] : List String).length) &&
      areSetsEqual ["svc1"] ([builtNode].map (fun n => n.id))) = true ∧
    (createAndSetLayoutedNodesAndEdges layoutAtOrigin [builtNode] []
        { nodes := [{ builtNode with position := { x := 5, y := 7 } }]
          edges := []
          previousNodesIds := ["svc1"] }).nodes.map (fun n => n.position) =
      [{ x := 0, y := 0 }] ∧
    ¬((createAndSetLayoutedNodesAndEdges layoutAtOrigin [builtNode] []
        { nodes := [{ builtNode with position := { x := 5, y := 7 } }]
          edges := []
          previousNodesIds := ["svc1"] }).nodes.map (fun n => n.position) =
      [{ x := 5, y := 7 }]) := by decide

end Keep
